import Mathlib

/-!
Verification of the stock-research pipeline (portfolio research agent).

The Python source is shallowly embedded: numbers are modelled as rationals,
Python `None` as `Option.none`, Python truthiness of numbers as
"present and nonzero", fallible external clients as `Except String`
values passed in as inputs, and the regular-expression searches of the
report formatter as explicit leftmost-match scanning functions over
`List Char` that implement the concrete patterns appearing in the source
(`src/feishu/formatter.py`, `src/feishu/server.py`, `src/agents/researcher.py`,
`src/tools/finnhub_client.py`, `src/tools/yfinance_client.py`,
`src/main.py`).

Note on the section-heading pattern: the source builds it with
`rf"(?:#{1,3}\s*\*{{0,2}}{ticker}\*{{0,2}}|^\*\*{ticker}\*\*)"`.
Because this is an f-string, `#{1,3}` is a replacement field evaluating the
tuple `(1, 3)`, so the compiled pattern is
`(?:#(1, 3)\s*\*{0,2}TICKER\*{0,2}|^\*\*TICKER\*\*)` - the first branch
requires the literal text `#1, 3`, and markdown headings like `## TICKER`
never match.  The embedding reproduces this faithfully.
-/

/-- Python whitespace for `\s`, `str.strip`, `str.split` (ASCII range). -/
def pyIsSpace (c : Char) : Bool :=
  c = ' ' || c = '\t' || c = '\n' || c = '\r' || c = '\x0b' || c = '\x0c'

/-- Python regex word character `\w` (ASCII model). -/
def pyIsWord (c : Char) : Bool :=
  c.isAlphanum || c = '_'

/-- Case-insensitive character equality (`re.IGNORECASE`, ASCII model). -/
def lowerEq (a b : Char) : Bool :=
  a.toLower = b.toLower

/-- Drop a case-insensitive literal pattern from the front of a text,
returning the rest, or `none` when the pattern is not a prefix. -/
def dropCi : List Char → List Char → Option (List Char)
  | [], cs => some cs
  | _ :: _, [] => none
  | p :: ps, c :: cs => if lowerEq p c then dropCi ps cs else none

/-- The case-insensitive literal pattern starts the text. -/
def ciStarts (pat cs : List Char) : Bool :=
  (dropCi pat cs).isSome

/-- Drop leading Python whitespace. -/
def dropWs : List Char → List Char
  | [] => []
  | c :: rest => if pyIsSpace c then dropWs rest else c :: rest

/-- Python `str.strip()`. -/
def pyStrip (cs : List Char) : List Char :=
  ((dropWs ((dropWs cs).reverse)).reverse)

/-- Round a rational to the nearest integer, ties to even
(Python `round` banker's rounding, idealized over the rationals). -/
def rhe (q : ℚ) : ℤ :=
  let f : ℤ := ⌊q⌋
  if q - f < 1/2 then f
  else if (1:ℚ)/2 < q - f then f + 1
  else if f % 2 = 0 then f else f + 1

/-- Python `round(q, 2)`. -/
def round2 (q : ℚ) : ℚ := rhe (q * 100) / 100

/-- Python `round(q, 1)`. -/
def round1 (q : ℚ) : ℚ := rhe (q * 10) / 10

/-- Python truthiness of an optional number: `None` and `0` are falsy. -/
def pyTruthyQ : Option ℚ → Bool
  | none => false
  | some q => q != 0

-- ## src/tools/finnhub_client.py and src/tools/yfinance_client.py

/-- A raw news item as returned by the finnhub client (dict with optional
keys `headline`, `summary`, `source`, `datetime`). -/
structure RawNewsItem where
  headline : Option String
  summary : Option String
  source : Option String
  dt : Option Int
deriving DecidableEq, Inhabited

/-- An entry of the list returned by `get_company_news`: either a mapped
news record or the single `error` record produced by the handler. -/
inductive NewsEntry where
  | item (headline summary source date : String)
  | err (e : String)
deriving DecidableEq, Inhabited

/-- `get_company_news` (src/tools/finnhub_client.py lines 10-31).
The finnhub client call is an input (`Except` models raising); `fmtDate`
stands for `datetime.fromtimestamp(..).strftime("%Y-%m-%d")`.  Python:
the whole body is inside `try`, and `except Exception as e` returns
`[{"error": str(e)}]`. -/
def getCompanyNews (fmtDate : Int → String) (client : Except String (Option (List RawNewsItem))) :
    List NewsEntry :=
  match client with
  | .error e => [NewsEntry.err e]
  | .ok news =>
    ((news.getD []).take 6).map (fun item =>
      NewsEntry.item (item.headline.getD "") ((item.summary.getD "").take 400)
        (item.source.getD "")
        (match item.dt with
         | some ts => if ts != 0 then fmtDate ts else ""
         | none => ""))

/-- A raw recommendation-trends row (dict with optional keys). -/
structure RawRec where
  period : Option String
  strongBuy : Option Int
  buy : Option Int
  hold : Option Int
  sell : Option Int
  strongSell : Option Int
deriving DecidableEq, Inhabited

/-- The dict returned by `get_analyst_recommendations`: `{}` when the
client returned a falsy list, a tally row, or the `error` dict. -/
inductive RecsResult where
  | empty
  | tally (period : String) (strongBuy buy hold sell strongSell : Int)
  | err (e : String)
deriving DecidableEq, Inhabited

/-- `get_analyst_recommendations` (src/tools/finnhub_client.py lines 34-49). -/
def getAnalystRecommendations (client : Except String (Option (List RawRec))) : RecsResult :=
  match client with
  | .error e => RecsResult.err e
  | .ok recs =>
    match recs.getD [] with
    | [] => RecsResult.empty
    | latest :: _ =>
      RecsResult.tally (latest.period.getD "") (latest.strongBuy.getD 0) (latest.buy.getD 0)
        (latest.hold.getD 0) (latest.sell.getD 0) (latest.strongSell.getD 0)

/-- The optional fields read from `yf.Ticker(t).info`. -/
structure YfInfo where
  fiftyTwoWeekHigh : Option ℚ
  fiftyTwoWeekLow : Option ℚ
  trailingPE : Option ℚ
  marketCap : Option ℚ
  sector : Option String
  industry : Option String
deriving DecidableEq, Inhabited

/-- The dict returned by `get_stock_context`: the snapshot, or the
`error` dict when the client raised. -/
inductive StockContext where
  | ok (currentPrice priceChange1moPct high52 low52 peRatioVal marketCapB : Option ℚ)
       (sector industry : Option String)
  | err (e : String)
deriving DecidableEq, Inhabited

/-- `get_stock_context` (src/tools/yfinance_client.py lines 24-48).
The client supplies `info` (`None` for a falsy dict) and the list of
closing prices from `stock.history(period="1mo")`. -/
def getStockContext (client : Except String (Option YfInfo × List ℚ)) : StockContext :=
  match client with
  | .error e => StockContext.err e
  | .ok (info?, closes) =>
    let info := info?.getD default
    let currentPrice : Option ℚ := closes.getLast?
    let monthAgo : Option ℚ := closes.head?
    let priceChange : Option ℚ :=
      if pyTruthyQ currentPrice && pyTruthyQ monthAgo then
        some (round2 ((currentPrice.getD 0 - monthAgo.getD 0) / monthAgo.getD 0 * 100))
      else none
    StockContext.ok
      (if pyTruthyQ currentPrice then some (round2 (currentPrice.getD 0)) else none)
      priceChange info.fiftyTwoWeekHigh info.fiftyTwoWeekLow info.trailingPE
      (match info.marketCap with
       | some mc => if mc != 0 then some (round1 (mc / 1000000000)) else none
       | none => none)
      info.sector info.industry

-- ## src/agents/researcher.py

/-- One entry of the portfolio's `stocks` list (`ticker` is mandatory,
`shares` / `avg_cost` are read with `.get`). -/
structure Holding where
  ticker : String
  shares : Option ℚ
  avg_cost : Option ℚ
deriving DecidableEq, Inhabited

/-- `context.get("current_price")`: `None` when the context is the
`error` dict. -/
def contextCurrentPrice : StockContext → Option ℚ
  | StockContext.ok cp _ _ _ _ _ _ _ => cp
  | StockContext.err _ => none

/-- The conditional expression of `research_stock` computing
`unrealized_pnl_pct` (src/agents/researcher.py lines 18-24):
`round((current_price - avg_cost) / avg_cost * 100, 2) if current_price and avg_cost else None`. -/
def unrealizedPnlPct (currentPrice avgCost : Option ℚ) : Option ℚ :=
  if pyTruthyQ currentPrice && pyTruthyQ avgCost then
    some (round2 ((currentPrice.getD 0 - avgCost.getD 0) / avgCost.getD 0 * 100))
  else none

/-- The record returned by `research_stock`. -/
structure ResearchRecord where
  ticker : String
  shares : Option ℚ
  avg_cost : Option ℚ
  unrealized_pnl_pct : Option ℚ
  price_context : StockContext
  recent_news : List NewsEntry
  analyst_recommendations : RecsResult
deriving DecidableEq, Inhabited

/-- `research_stock` (src/agents/researcher.py): the three lookups have
already completed (their results are the arguments); the record is
assembled and the derived metric computed. -/
def researchStock (stock : Holding) (news : List NewsEntry) (recommendations : RecsResult)
    (context : StockContext) : ResearchRecord :=
  { ticker := stock.ticker
    shares := stock.shares
    avg_cost := stock.avg_cost
    unrealized_pnl_pct := unrealizedPnlPct (contextCurrentPrice context) stock.avg_cost
    price_context := context
    recent_news := news
    analyst_recommendations := recommendations }

/-- The per-holding external world: the date formatter and the three
provider-client outcomes consumed by `research_stock`'s lookups. -/
structure ProviderClients where
  fmtDate : Int → String
  newsClient : Except String (Option (List RawNewsItem))
  recsClient : Except String (Option (List RawRec))
  contextClient : Except String (Option YfInfo × List ℚ)

/-- `research_stock` wired to its three provider lookups. -/
def runResearch (stock : Holding) (pc : ProviderClients) : ResearchRecord :=
  researchStock stock (getCompanyNews pc.fmtDate pc.newsClient)
    (getAnalystRecommendations pc.recsClient) (getStockContext pc.contextClient)

-- ## Fan-out (src/main.py lines 27-35, src/feishu/server.py lines 150-160)

/-- The indexed-slot join of `asyncio.gather`: tasks complete in an
arbitrary `order`; each completion writes its result into its own input
slot.  The slot table is a function from index to optional result. -/
def gatherSlots (f : Nat → ResearchRecord) (order : List Nat) : Nat → Option ResearchRecord :=
  order.foldl (fun slots i => fun j => if j = i then some (f i) else slots j) (fun _ => none)

/-- The fan-out stage: `asyncio.gather(*[research_with_limit(s) for s in stocks])`
joined in input order, with `order` the completion order of the tasks. -/
def fanOut (stocks : List Holding) (env : Nat → ProviderClients) (order : List Nat) :
    List ResearchRecord :=
  (List.range stocks.length).map
    (fun i => (gatherSlots (fun j => runResearch (stocks.getD j default) (env j)) order i).getD default)

/-- State of the semaphore-gated fan-out (`asyncio.Semaphore(5)`): how
many holdings are not yet admitted, in flight, and completed. -/
structure FanoutState where
  pending : Nat
  running : Nat
  completed : Nat
deriving DecidableEq

/-- A scheduler step: start a pending task only when fewer than 5 are in
flight (`async with semaphore` around `research_stock`), or retire a
running task. -/
inductive FanoutStep : FanoutState → FanoutState → Prop
  | acquire (p r d : Nat) : r < 5 → FanoutStep ⟨p + 1, r, d⟩ ⟨p, r + 1, d⟩
  | finish (p r d : Nat) : FanoutStep ⟨p, r + 1, d⟩ ⟨p, r, d + 1⟩

/-- Reachability along scheduler steps. -/
inductive FanoutReach (start : FanoutState) : FanoutState → Prop
  | refl : FanoutReach start start
  | step {s s' : FanoutState} : FanoutReach start s → FanoutStep s s' → FanoutReach start s'

/-- The fan-out starts with all `n` holdings pending. -/
def fanoutStart (n : Nat) : FanoutState := ⟨n, 0, 0⟩

-- ## src/feishu/formatter.py : the report extraction engine

/-- Branch `\*{0,2}TICKER\*{0,2}` of the heading pattern: up to two stars,
then the ticker, case-insensitively (the trailing optional stars never
affect whether a match exists, and only `match.start()` is used). -/
def starsTicker (ticker : List Char) (cs : List Char) : Bool :=
  ciStarts ticker cs ||
  (match cs with
   | '*' :: rest =>
     ciStarts ticker rest ||
     (match rest with
      | '*' :: rest2 => ciStarts ticker rest2
      | _ => false)
   | _ => false)

/-- `\s*` then `starsTicker` (existential semantics of the greedy star). -/
def wsStarsTicker (ticker : List Char) : List Char → Bool
  | [] => starsTicker ticker []
  | c :: rest => starsTicker ticker (c :: rest) || (pyIsSpace c && wsStarsTicker ticker rest)

/-- First branch of the compiled heading pattern:
`#(1, 3)\s*\*{0,2}TICKER\*{0,2}` - the literal `#1, 3` (see the f-string
note in the header), whitespace, optional stars, the ticker. -/
def altLiteral (ticker : List Char) (cs : List Char) : Bool :=
  match cs with
  | '#' :: '1' :: ',' :: ' ' :: '3' :: rest => wsStarsTicker ticker rest
  | _ => false

/-- The ticker followed immediately by `**`. -/
def tickerThenStars (ticker : List Char) (cs : List Char) : Bool :=
  match dropCi ticker cs with
  | some ('*' :: '*' :: _) => true
  | _ => false

/-- Second branch `^\*\*TICKER\*\*` (only valid at a line start under
`re.MULTILINE`). -/
def altHeading (ticker : List Char) (cs : List Char) : Bool :=
  match cs with
  | '*' :: '*' :: rest => tickerThenStars ticker rest
  | _ => false

/-- Leftmost-match scan for the heading pattern of `_split_stock_sections`,
tracking whether the current position is a line start; returns the match
start index offset by `idx`. -/
def findMarkerAux (ticker : List Char) : List Char → Bool → Nat → Option Nat
  | [], atStart, idx =>
    if altLiteral ticker [] || (atStart && altHeading ticker []) then some idx else none
  | c :: rest, atStart, idx =>
    if altLiteral ticker (c :: rest) || (atStart && altHeading ticker (c :: rest)) then some idx
    else findMarkerAux ticker rest (c = '\n') (idx + 1)

/-- `re.search(pattern, text, re.IGNORECASE | re.MULTILINE).start()` for
the heading pattern of one ticker, on a character list. -/
def findMarkerL (text ticker : List Char) : Option Nat :=
  findMarkerAux ticker text true 0

/-- Marker search on strings. -/
def findMarker (text ticker : String) : Option Nat :=
  findMarkerL text.data ticker.data

/-- The section slice for one ticker (`_split_stock_sections` body):
from its marker to the next ticker's marker searched in `text[start+1:]`,
or to the end; the whole text when no marker is found. -/
def sectionFor (text : List Char) (ticker : List Char) (next? : Option (List Char)) : List Char :=
  match findMarkerL text ticker with
  | none => text
  | some start =>
    let stop : Nat :=
      match next? with
      | none => text.length
      | some nt =>
        match findMarkerL (text.drop (start + 1)) nt with
        | some nstart => start + 1 + nstart
        | none => text.length
    (text.take stop).drop start

/-- Insertion-ordered dict assignment `result[k] = v`. -/
def dictSet (d : List (String × String)) (k v : String) : List (String × String) :=
  match d with
  | [] => [(k, v)]
  | (k', v') :: rest => if k' = k then (k, v) :: rest else (k', v') :: dictSet rest k v

/-- Dict lookup. -/
def dictGet (d : List (String × String)) (t : String) : Option String :=
  match d with
  | [] => none
  | (k, v) :: rest => if k = t then some v else dictGet rest t

/-- The loop of `_split_stock_sections`: each ticker is assigned its
section, the next ticker in the list bounding the slice. -/
def splitGo (text : List Char) : List String → List (String × String) → List (String × String)
  | [], d => d
  | t :: rest, d =>
    splitGo text rest (dictSet d t (String.mk (sectionFor text t.data (rest.head?.map String.data))))

/-- `_split_stock_sections(text, tickers)` (src/feishu/formatter.py
lines 198-221). -/
def splitStockSections (text : String) (tickers : List String) : List (String × String) :=
  splitGo text.data tickers []

/-- One keyword alternative of `\b(BUY|HOLD|SELL)\b` matching at this
position: the keyword case-insensitively, followed by a non-word
character or the end of text. -/
def recKwOne (kw : List Char) (canon : String) (cs : List Char) : Option String :=
  match dropCi kw cs with
  | some [] => some canon
  | some (c :: _) => if pyIsWord c then none else some canon
  | none => none

/-- The alternation `BUY|HOLD|SELL` at this position (at most one branch
can match: the first letters differ). -/
def recKwAt (cs : List Char) : Option String :=
  match recKwOne ['B', 'U', 'Y'] ("BUY") cs with
  | some k => some k
  | none =>
    match recKwOne ['H', 'O', 'L', 'D'] ("HOLD") cs with
    | some k => some k
    | none => recKwOne ['S', 'E', 'L', 'L'] ("SELL") cs

/-- Leftmost-match scan for `\b(BUY|HOLD|SELL)\b`, tracking whether the
previous character was a word character (the left boundary). -/
def findRecAux : List Char → Bool → Option String
  | [], _ => none
  | c :: rest, prevWord =>
    match (if prevWord then none else recKwAt (c :: rest)) with
    | some k => some k
    | none => findRecAux rest (pyIsWord c)

/-- `_extract_recommendation` (src/feishu/formatter.py lines 224-227):
`m.group(1).upper()` of the first match, `"N/A"` when absent. -/
def extractRecommendation (text : String) : String :=
  (findRecAux text.data false).getD ("N/A")

/-- The character class `[:\s*_]` of the confidence pattern. -/
def confClass (c : Char) : Bool :=
  c = ':' || pyIsSpace c || c = '*' || c = '_'

/-- The alternation `High|Medium|Low` at this position (first letters
differ, so at most one branch matches; the trailing `\**` is optional and
never blocks a match). -/
def confKwAt (cs : List Char) : Option String :=
  if ciStarts ['H', 'i', 'g', 'h'] cs then some ("High")
  else if ciStarts ['M', 'e', 'd', 'i', 'u', 'm'] cs then some ("Medium")
  else if ciStarts ['L', 'o', 'w'] cs then some ("Low")
  else none

/-- `[:\s*_]*\**` then the keyword: existential skip semantics (the
keywords never start with a class character, so the match point is
unique). -/
def afterConf : List Char → Option String
  | [] => none
  | c :: rest =>
    match confKwAt (c :: rest) with
    | some k => some k
    | none => if confClass c then afterConf rest else none

/-- Leftmost-match scan for `Confidence[:\s*_]*\**(High|Medium|Low)\**`. -/
def findConfAux : List Char → Option String
  | [] => none
  | c :: rest =>
    match dropCi ['C', 'o', 'n', 'f', 'i', 'd', 'e', 'n', 'c', 'e'] (c :: rest) with
    | some after =>
      match afterConf after with
      | some k => some k
      | none => findConfAux rest
    | none => findConfAux rest

/-- `_extract_confidence` (src/feishu/formatter.py lines 230-233):
`m.group(1).capitalize()` of the first match, `"N/A"` when absent. -/
def extractConfidence (text : String) : String :=
  (findConfAux text.data).getD ("N/A")

/-- A break character of the lookahead class `[-*#\n]`. -/
def breakChar (c : Char) : Bool :=
  c = '-' || c = '*' || c = '#' || c = '\n'

/-- `\s*[-*#\n]` (existential skip semantics). -/
def wsThenBreak : List Char → Bool
  | [] => false
  | c :: rest => breakChar c || (pyIsSpace c && wsThenBreak rest)

/-- The lookahead `(?=\n\s*[-*#\n]|\Z)` evaluated at a suffix. -/
def lookOk (cs : List Char) : Bool :=
  match cs with
  | [] => true
  | '\n' :: rest => wsThenBreak rest
  | _ => false

/-- The lazy tail of `(.+?)`: extend the capture minimally until the
lookahead holds (it always holds at the end of text via `\Z`). -/
def captureMore : List Char → List Char
  | [] => []
  | c :: rest => if lookOk (c :: rest) then [] else c :: captureMore rest

/-- The lazy capture `(.+?)(?=..)`: at least one character, then minimal
extension. -/
def captureLazy : List Char → List Char
  | [] => []
  | c :: rest => c :: captureMore rest

/-- `\*{0,2}LABEL` at this position; returns the rest after the label.
The label starts with a letter, so at most one star count can succeed. -/
def starsThenLabel (label : List Char) (cs : List Char) : Option (List Char) :=
  match dropCi label cs with
  | some r => some r
  | none =>
    match cs with
    | '*' :: rest =>
      (match dropCi label rest with
       | some r => some r
       | none =>
         match rest with
         | '*' :: rest2 => dropCi label rest2
         | _ => none)
    | _ => none

/-- The section-body character class `[:\s]`. -/
def secClass (c : Char) : Bool :=
  c = ':' || pyIsSpace c

/-- Length of the leading `[:\s]` run. -/
def classRun : List Char → Nat
  | [] => 0
  | c :: rest => if secClass c then classRun rest + 1 else 0

/-- Drop the greedy `\*{0,2}` after the label (at most two leading stars;
if more stars follow, no backtracking branch can reach the required
`[:\s]+`, matching the regex engine's failure). -/
def dropStars : List Char → List Char
  | '*' :: '*' :: rest => rest
  | '*' :: rest => rest
  | cs => cs

/-- After `\*{0,2}LABEL`: the trailing `\*{0,2}[:\s]+(.+?)(?=..)` of
`_extract_section`'s pattern.  The greedy `[:\s]+` takes the maximal run;
when that run reaches the end of text the engine backtracks one class
character into the capture (the capture needs at least one character). -/
def afterLabelCapture (cs : List Char) : Option (List Char) :=
  let cs' := dropStars cs
  let run := classRun cs'
  if run = 0 then none
  else
    match cs'.drop run with
    | [] => if 2 ≤ run then some ((cs'.drop (run - 1)).take 1) else none
    | c :: rest => some (captureLazy (c :: rest))

/-- Leftmost-match scan for
`\*{0,2}LABEL\*{0,2}[:\s]+(.+?)(?=\n\s*[-*#\n]|\Z)`, returning the
captured group. -/
def findSectionAux (label : List Char) : List Char → Option (List Char)
  | [] => none
  | c :: rest =>
    match (match starsThenLabel label (c :: rest) with
           | some afterL => afterLabelCapture afterL
           | none => none) with
    | some cap => some cap
    | none => findSectionAux label rest

/-- `_extract_section(text, label)` (src/feishu/formatter.py lines
236-242): `m.group(1).strip()[:400]`, `""` when no match. -/
def extractSection (text : String) (label : String) : String :=
  match findSectionAux label.data text.data with
  | some cap => String.mk ((pyStrip cap).take 400)
  | none => ""

/-- Leftmost-match scan for
`OVERALL PORTFOLIO ASSESSMENT(.+?)(?=\Z)`: the capture is everything
after the first occurrence of the label that is followed by at least one
character. -/
def findOverallAux : List Char → Option (List Char)
  | [] => none
  | c :: rest =>
    match dropCi ("OVERALL PORTFOLIO ASSESSMENT").data (c :: rest) with
    | some (a :: after) => some (a :: after)
    | _ => findOverallAux rest

/-- `_extract_overall_assessment` (src/feishu/formatter.py lines
245-254): `m.group(1).strip()[:800]`, `""` when no match. -/
def extractOverallAssessment (text : String) : String :=
  match findOverallAux text.data with
  | some cap => String.mk ((pyStrip cap).take 800)
  | none => ""

/-- The per-symbol fields extracted by `build_card` for one section. -/
structure SymbolReport where
  verdict : String
  confidence : String
  reasoning : String
  keyRisk : String
deriving DecidableEq, Inhabited

/-- The structured report extracted by `build_card` from the analyst
narrative: the per-symbol fields of each section plus the overall
assessment (src/feishu/formatter.py lines 29-141; the card's timestamp,
trigger and runtime footer are inputs of the delivery layer, not derived
from the narrative). -/
structure StructuredReport where
  perSymbol : List (String × SymbolReport)
  overall : String
deriving DecidableEq, Inhabited

/-- The extraction pipeline of `build_card`: split into sections, then
extract verdict, confidence, reasoning and key risk per section, and the
overall assessment from the full narrative. -/
def structuredReport (narrative : String) (tickers : List String) : StructuredReport :=
  { perSymbol :=
      (splitStockSections narrative tickers).map
        (fun sec =>
          (sec.fst,
           { verdict := extractRecommendation sec.snd
             confidence := extractConfidence sec.snd
             reasoning := extractSection sec.snd ("Reasoning")
             keyRisk := extractSection sec.snd ("Key Risk") }))
    overall := extractOverallAssessment narrative }

/-- Lookup in the per-symbol mapping of a structured report. -/
def reportGet (d : List (String × SymbolReport)) (t : String) : Option SymbolReport :=
  match d with
  | [] => none
  | (k, v) :: rest => if k = t then some v else reportGet rest t

-- ## src/feishu/server.py : portfolio loading and the command text

/-- Last-occurrence lookup: `{s["ticker"]: s for s in all_stocks}.get(t)`
(a dict comprehension keeps the last entry for a duplicated key). -/
def portfolioLookup : List Holding → String → Option Holding
  | [], _ => none
  | s :: rest, t =>
    match portfolioLookup rest t with
    | some h => some h
    | none => if s.ticker = t then some s else none

/-- Python truthiness of `ticker_override : list[str] | None`. -/
def pyTruthyTickers : Option (List String) → Bool
  | none => false
  | some ts => !ts.isEmpty

/-- `_load_portfolio` (src/feishu/server.py lines 163-177): with a truthy
override, one holding per requested ticker - from the portfolio map, or
synthesized with zero shares and cost; otherwise the full list. -/
def loadHoldings (allStocks : List Holding) (override : Option (List String)) : List Holding :=
  if pyTruthyTickers override then
    (override.getD []).map
      (fun t => (portfolioLookup allStocks t).getD { ticker := t, shares := some 0, avg_cost := some 0 })
  else allStocks

/-- `str.split()` with no separator: split on whitespace runs, no empty
tokens. -/
def pySplitAux : List Char → List Char → List String
  | [], acc => if acc.isEmpty then [] else [String.mk acc.reverse]
  | c :: rest, acc =>
    if pyIsSpace c then
      if acc.isEmpty then pySplitAux rest [] else String.mk acc.reverse :: pySplitAux rest []
    else pySplitAux rest (c :: acc)

/-- Python `clean.split()`. -/
def pySplit (s : String) : List String :=
  pySplitAux s.data []

/-- Python `str.isalpha()` (ASCII model): nonempty and all letters. -/
def pyIsAlphaStr (s : String) : Bool :=
  !s.data.isEmpty && s.data.all Char.isAlpha

/-- Python `str.upper()` (ASCII model). -/
def pyUpperStr (s : String) : String :=
  String.mk (s.data.map Char.toUpper)

/-- `[p.upper() for p in parts[1:] if p.isalpha()]`
(src/feishu/server.py lines 114-120). -/
def extraTickersOf (clean : String) : List String :=
  (((pySplit clean).drop 1).filter pyIsAlphaStr).map pyUpperStr

/-- `ticker_override=extra_tickers or None`. -/
def tickerOverrideOf (clean : String) : Option (List String) :=
  let extra := extraTickersOf clean
  if extra.isEmpty then none else some extra

/-- Python `s.startswith(t)` on character lists. -/
def pyStartsWith (s t : String) : Bool :=
  t.data.isPrefixOf s.data

-- ## Claim theorems

/-- Claim C1, counterexample: the price context can contain
`current_price = 0` (e.g. `round(0.004, 2)` stores `0.0`), and with
`avg_cost = 10` present and nonzero the claim demands the rounded
percentage `-100`, but `research_stock`'s truthiness test
(`if current_price and avg_cost`) yields `None`. -/
theorem claim_c1_counterexample :
    contextCurrentPrice (StockContext.ok (some 0) none none none none none none none) = some 0 ∧
    (researchStock { ticker := ("AAA"), shares := some 1, avg_cost := some 10 } []
        RecsResult.empty
        (StockContext.ok (some 0) none none none none none none none)).unrealized_pnl_pct = none ∧
    (none : Option ℚ) ≠ some (round2 ((0 - 10) / 10 * 100)) :=
  ⟨rfl, rfl, fun h => Option.noConfusion h⟩

/-- Claim C1 (amended): the ResearchRecord produced by `research_stock`
has `unrealized_pnl_pct = round((current_price - avg_cost) / avg_cost * 100, 2)`
when both `current_price` and `avg_cost` are present, non-null and
nonzero; if either operand is absent, null, or zero (Python truthiness,
so also when `current_price = 0`), the result is null. -/
theorem claim_c1_unrealized_pnl (stock : Holding) (news : List NewsEntry)
    (recs : RecsResult) (context : StockContext) :
    (∀ cp ac : ℚ, contextCurrentPrice context = some cp → stock.avg_cost = some ac →
      cp ≠ 0 → ac ≠ 0 →
      (researchStock stock news recs context).unrealized_pnl_pct =
        some (round2 ((cp - ac) / ac * 100))) ∧
    ((contextCurrentPrice context = none ∨ contextCurrentPrice context = some 0 ∨
      stock.avg_cost = none ∨ stock.avg_cost = some 0) →
      (researchStock stock news recs context).unrealized_pnl_pct = none) := by
  constructor
  · intro cp ac hcp hac hcp0 hac0
    simp [researchStock, unrealizedPnlPct, hcp, hac, pyTruthyQ, hcp0, hac0]
  · rintro (h | h | h | h) <;>
      simp [researchStock, unrealizedPnlPct, h, pyTruthyQ]

/-- Witness for C1 at current price 5 and average cost 4. -/
theorem claim_c1_unrealized_pnl_w :
    (researchStock { ticker := ("AAA"), shares := some 1, avg_cost := some 4 } []
        RecsResult.empty
        (StockContext.ok (some 5) none none none none none none none)).unrealized_pnl_pct =
      some (round2 ((5 - 4) / 4 * 100)) :=
  (claim_c1_unrealized_pnl { ticker := ("AAA"), shares := some 1, avg_cost := some 4 } []
      RecsResult.empty (StockContext.ok (some 5) none none none none none none none)).1
    5 4 rfl rfl (by norm_num) (by norm_num)

/-- Claim C5: the report extraction engine is deterministic and
idempotent - invoking `structuredReport` twice on equal narratives and
equal symbol lists yields identical structured reports (the engine is a
pure function of the narrative and the symbol list; the card's
timestamp/trigger/runtime footer are separate delivery-layer inputs). -/
theorem claim_c5_deterministic (n1 n2 : String) (s1 s2 : List String)
    (hn : n1 = n2) (hs : s1 = s2) :
    structuredReport n1 s1 = structuredReport n2 s2 := by
  subst hn; subst hs; rfl

/-- Witness for C5 on a concrete narrative. -/
theorem claim_c5_deterministic_w :
    structuredReport ("**AAA**\nBUY") ["AAA"] = structuredReport ("**AAA**\nBUY") ["AAA"] :=
  claim_c5_deterministic ("**AAA**\nBUY") ("**AAA**\nBUY") ["AAA"] ["AAA"] rfl rfl

/-- Claim C7: none of the three provider lookups propagates a client
exception - an erroring client always produces the inline `error`
record: `get_company_news` returns the single-element error list,
`get_analyst_recommendations` and `get_stock_context` return the error
dict. -/
theorem claim_c7_provider_errors (e : String) (fmtDate : Int → String) :
    getCompanyNews fmtDate (Except.error e) = [NewsEntry.err e] ∧
    getAnalystRecommendations (Except.error e) = RecsResult.err e ∧
    getStockContext (Except.error e) = StockContext.err e :=
  ⟨rfl, rfl, rfl⟩

/-- A one-entry portfolio used by the C8 theorems. -/
def holdingAAPL : Holding := { ticker := ("AAPL"), shares := some 1, avg_cost := some 2 }

/-- Claim C8, counterexample: for the empty override list the loader
returns the whole portfolio (the `if ticker_override:` truthiness test
treats `[]` like `None`), not one holding per requested ticker (which
would be none at all). -/
theorem claim_c8_counterexample :
    loadHoldings [holdingAAPL] (some []) = [holdingAAPL] ∧
    loadHoldings [holdingAAPL] (some []) ≠ [] :=
  ⟨rfl, by decide⟩

/-- Claim C8 (amended): for every NON-EMPTY ticker-override list, the
loader returns one holding per requested ticker in override order - the
portfolio's (last) entry for a known ticker, and a synthesized holding
with zero shares and cost for an unknown one; unknown tickers are never
rejected or omitted.  (The empty list falls back to the full portfolio.) -/
theorem claim_c8_load (allStocks : List Holding) (ts : List String) (hne : ts ≠ []) :
    (loadHoldings allStocks (some ts)).length = ts.length ∧
    (∀ i : Nat, i < ts.length →
      (loadHoldings allStocks (some ts)).getD i default =
        (portfolioLookup allStocks (ts.getD i "")).getD
          { ticker := ts.getD i "", shares := some 0, avg_cost := some 0 }) := by
  have htruthy : pyTruthyTickers (some ts) = true := by
    simp [pyTruthyTickers, List.isEmpty_iff, hne]
  constructor
  · simp [loadHoldings, htruthy]
  · intro i hi
    simp only [loadHoldings, htruthy, if_pos, Option.getD_some]
    rw [List.getD_eq_getElem?_getD, List.getElem?_map,
      List.getElem?_eq_getElem hi, List.getD_eq_getElem?_getD,
      List.getElem?_eq_getElem hi]
    rfl

/-- Witness for C8: a known and an unknown ticker in one override. -/
theorem claim_c8_load_w :
    (loadHoldings [holdingAAPL] (some [("AAPL"), ("ZZZ")])).getD 1 default =
      { ticker := ("ZZZ"), shares := some 0, avg_cost := some 0 } := by
  have h := (claim_c8_load [holdingAAPL] [("AAPL"), ("ZZZ")] (by decide)).2 1 (by decide)
  exact h.trans (by decide)

/-- Claim C9: along every schedule of the semaphore-gated fan-out
(admission only below the cap, as in `async with semaphore` around
`research_stock` with `asyncio.Semaphore(5)`), every reachable state -
for any number of holdings, including 20 or more - has at most 5
research calls in flight. -/
theorem claim_c9_semaphore_cap (n : Nat) (s : FanoutState)
    (h : FanoutReach (fanoutStart n) s) : s.running ≤ 5 := by
  induction h with
  | refl => simp [fanoutStart]
  | step _ hstep ih =>
    cases hstep with
    | acquire p r d hr => exact hr
    | finish p r d => exact Nat.le_of_succ_le ih

/-- Witness for C9: from 20 pending holdings, admitting one task reaches
a state with 1 ≤ 5 running. -/
theorem claim_c9_semaphore_cap_w : (⟨19, 1, 0⟩ : FanoutState).running ≤ 5 :=
  claim_c9_semaphore_cap 20 ⟨19, 1, 0⟩
    (FanoutReach.step FanoutReach.refl (FanoutStep.acquire 19 0 0 (by omega)))

/-- Claim C10: for a mention-stripped, lowercased command text starting
with `run`, the ticker override is exactly the whitespace-separated
tokens after the first token that are purely alphabetic, each
uppercased (tokens with digits or punctuation are dropped), and when no
token qualifies the override is `None`, in which case the loader
analyzes the full portfolio. -/
theorem claim_c10_run_command (clean : String) (allStocks : List Holding)
    (hrun : pyStartsWith clean ("run") = true) :
    (tickerOverrideOf clean =
      if (((pySplit clean).drop 1).filter pyIsAlphaStr) = [] then none
      else some ((((pySplit clean).drop 1).filter pyIsAlphaStr).map pyUpperStr)) ∧
    (tickerOverrideOf clean = none → loadHoldings allStocks none = allStocks) := by
  refine ⟨?_, fun _ => rfl⟩
  simp only [tickerOverrideOf, extraTickersOf]
  by_cases h : (((pySplit clean).drop 1).filter pyIsAlphaStr) = [] <;>
    simp [h, List.isEmpty_iff, List.map_eq_nil_iff]

/-- Witness for C10: `run aapl brk.b msft` keeps `AAPL` and `MSFT` and
drops the dotted ticker. -/
theorem claim_c10_run_command_w :
    tickerOverrideOf ("run aapl brk.b msft") = some [("AAPL"), ("MSFT")] := by
  have h := (claim_c10_run_command ("run aapl brk.b msft") [] (by decide)).1
  exact h.trans (by decide)

-- ## Dict lemmas shared by the C2 and C6 theorems

/-- Key membership after a dict assignment. -/
theorem mem_keys_dictSet (d : List (String × String)) (k v t : String) :
    t ∈ (dictSet d k v).map Prod.fst ↔ t = k ∨ t ∈ d.map Prod.fst := by
  induction d with
  | nil => simp [dictSet]
  | cons hd tl ih =>
    obtain ⟨k', v'⟩ := hd
    simp only [dictSet]
    by_cases h : k' = k
    · rw [if_pos h]
      subst h
      simp only [List.map_cons, List.mem_cons]
      tauto
    · rw [if_neg h]
      simp only [List.map_cons, List.mem_cons, ih]
      tauto

/-- Reading back the key just assigned. -/
theorem dictGet_dictSet_self (d : List (String × String)) (k v : String) :
    dictGet (dictSet d k v) k = some v := by
  induction d with
  | nil => simp [dictSet, dictGet]
  | cons hd tl ih =>
    obtain ⟨k', v'⟩ := hd
    by_cases h : k' = k
    · simp [dictSet, h, dictGet]
    · simp [dictSet, h, dictGet, ih]

/-- Reading a different key after an assignment. -/
theorem dictGet_dictSet_ne (d : List (String × String)) (k v t : String) (h : k ≠ t) :
    dictGet (dictSet d k v) t = dictGet d t := by
  induction d with
  | nil => simp [dictSet, dictGet, h]
  | cons hd tl ih =>
    obtain ⟨k', v'⟩ := hd
    by_cases hk : k' = k
    · subst hk
      simp [dictSet, dictGet, h]
    · simp only [dictSet, if_neg hk, dictGet]
      by_cases ht : k' = t <;> simp [ht, ih]

/-- Key membership over the `_split_stock_sections` loop. -/
theorem mem_keys_splitGo (cs : List Char) (ts : List String)
    (d : List (String × String)) (t : String) :
    t ∈ (splitGo cs ts d).map Prod.fst ↔ t ∈ ts ∨ t ∈ d.map Prod.fst := by
  induction ts generalizing d with
  | nil => simp [splitGo]
  | cons a rest ih =>
    simp only [splitGo, ih, mem_keys_dictSet, List.mem_cons]
    tauto

/-- The loop leaves keys outside the remaining ticker list untouched. -/
theorem dictGet_splitGo_of_notMem (cs : List Char) (ts : List String)
    (d : List (String × String)) (t : String) (h : t ∉ ts) :
    dictGet (splitGo cs ts d) t = dictGet d t := by
  induction ts generalizing d with
  | nil => rfl
  | cons a rest ih =>
    simp only [splitGo]
    rw [ih _ (fun hm => h (List.mem_cons_of_mem _ hm))]
    exact dictGet_dictSet_ne _ _ _ _ (fun heq => h (heq ▸ List.mem_cons_self a rest))

/-- A ticker without a marker is always assigned the entire text by the
loop, whatever its position in the list. -/
theorem dictGet_splitGo_of_no_marker (cs : List Char) (ts : List String)
    (d : List (String × String)) (t : String) (hmem : t ∈ ts)
    (hmark : findMarkerL cs t.data = none) :
    dictGet (splitGo cs ts d) t = some (String.mk cs) := by
  induction ts generalizing d with
  | nil => cases hmem
  | cons a rest ih =>
    by_cases hat : t = a
    · subst hat
      by_cases hrest : t ∈ rest
      · simp only [splitGo]
        exact ih _ hrest
      · simp only [splitGo]
        rw [dictGet_splitGo_of_notMem _ _ _ _ hrest]
        have hsec : sectionFor cs t.data (rest.head?.map String.data) = cs := by
          simp [sectionFor, hmark]
        rw [hsec]
        exact dictGet_dictSet_self _ _ _
    · have hrest : t ∈ rest := by
        rcases List.mem_cons.mp hmem with h | h
        · exact absurd h hat
        · exact h
      simp only [splitGo]
      exact ih _ hrest

/-- Claim C2: for every narrative and requested symbol list, the
per-symbol section mapping of `_split_stock_sections` has exactly the
requested symbols as its key set, and a symbol with no heading marker is
mapped to the entire narrative - no symbol is ever dropped. -/
theorem claim_c2_section_keys (narrative : String) (tickers : List String) :
    (∀ t : String, t ∈ (splitStockSections narrative tickers).map Prod.fst ↔ t ∈ tickers) ∧
    (∀ t : String, t ∈ tickers → findMarker narrative t = none →
      dictGet (splitStockSections narrative tickers) t = some narrative) := by
  constructor
  · intro t
    have h := mem_keys_splitGo narrative.data tickers [] t
    simpa [splitStockSections] using h
  · intro t hmem hmark
    obtain ⟨cs⟩ := narrative
    exact dictGet_splitGo_of_no_marker cs tickers [] t hmem hmark

/-- Witness for C2: `BBB` has no marker in the narrative yet is a key,
mapped to the whole narrative. -/
theorem claim_c2_section_keys_w :
    ("BBB") ∈ (splitStockSections ("**AAA**\nx") ["AAA", "BBB"]).map Prod.fst ∧
    dictGet (splitStockSections ("**AAA**\nx") ["AAA", "BBB"]) ("BBB") =
      some ("**AAA**\nx") := by
  constructor
  · exact ((claim_c2_section_keys ("**AAA**\nx") ["AAA", "BBB"]).1 ("BBB")).mpr (by decide)
  · exact (claim_c2_section_keys ("**AAA**\nx") ["AAA", "BBB"]).2 ("BBB") (by decide) (by decide)

/-- Looking up a symbol in the extracted per-symbol report list mirrors
the section-dict lookup. -/
theorem reportGet_map_sections (d : List (String × String)) (t sec : String)
    (f : String → SymbolReport) (h : dictGet d t = some sec) :
    reportGet (d.map (fun p => (p.fst, f p.snd))) t = some (f sec) := by
  induction d with
  | nil => simp [dictGet] at h
  | cons hd tl ih =>
    obtain ⟨k, v⟩ := hd
    simp only [dictGet] at h
    simp only [List.map_cons, reportGet]
    by_cases hk : k = t
    · rw [if_pos hk] at h ⊢
      obtain rfl : v = sec := Option.some.inj h
      rfl
    · rw [if_neg hk] at h ⊢
      exact ih h

/-- Claim C6, counterexample: `AAA` has no heading marker in the
narrative `just BUY`, yet the engine reports verdict `BUY` for it, not
`N/A`: the no-marker fallback hands the symbol the entire narrative, and
the verdict keyword is then found there. -/
theorem claim_c6_counterexample :
    findMarker ("just BUY") ("AAA") = none ∧
    reportGet (structuredReport ("just BUY") ["AAA"]).perSymbol ("AAA") =
      some { verdict := ("BUY"), confidence := ("N/A"), reasoning := "", keyRisk := "" } ∧
    ("BUY" : String) ≠ ("N/A") := by
  refine ⟨by decide, by decide, by decide⟩

/-- Claim C6 (amended): for a symbol with no heading marker the engine
falls back to the entire narrative as that symbol's section and never
raises; whenever the narrative as a whole additionally matches none of
the verdict, confidence, reasoning or key-risk patterns, the engine
returns verdict `N/A`, confidence `N/A` and empty reasoning and
key-risk strings for that symbol. -/
theorem claim_c6_no_marker_defaults (narrative : String) (tickers : List String) (t : String)
    (hmem : t ∈ tickers)
    (hmark : findMarker narrative t = none)
    (hrec : findRecAux narrative.data false = none)
    (hconf : findConfAux narrative.data = none)
    (hreas : findSectionAux ("Reasoning").data narrative.data = none)
    (hrisk : findSectionAux ("Key Risk").data narrative.data = none) :
    reportGet (structuredReport narrative tickers).perSymbol t =
      some { verdict := ("N/A"), confidence := ("N/A"), reasoning := "", keyRisk := "" } := by
  have hsec : dictGet (splitStockSections narrative tickers) t = some narrative := by
    obtain ⟨cs⟩ := narrative
    exact dictGet_splitGo_of_no_marker cs tickers [] t hmem hmark
  have h := reportGet_map_sections (splitStockSections narrative tickers) t narrative
    (fun s =>
      { verdict := extractRecommendation s
        confidence := extractConfidence s
        reasoning := extractSection s ("Reasoning")
        keyRisk := extractSection s ("Key Risk") }) hsec
  rw [structuredReport]
  rw [h]
  simp [extractRecommendation, extractConfidence, extractSection, hrec, hconf, hreas, hrisk]

/-- Witness for C6 on a narrative with no extractable tokens at all. -/
theorem claim_c6_no_marker_defaults_w :
    reportGet (structuredReport ("nothing here") ["AAA"]).perSymbol ("AAA") =
      some { verdict := ("N/A"), confidence := ("N/A"), reasoning := "", keyRisk := "" } :=
  claim_c6_no_marker_defaults ("nothing here") ["AAA"] ("AAA") (by decide) (by decide)
    (by decide) (by decide) (by decide) (by decide)

-- ## C3: indexed-slot join of the fan-out

/-- Evaluation of the indexed-slot join: a slot holds its own task's
result as soon as its index occurred in the completion order. -/
theorem gatherSlots_eval (f : Nat → ResearchRecord) (order : List Nat) (i : Nat) :
    gatherSlots f order i = if i ∈ order then some (f i) else none := by
  suffices h : ∀ init : Nat → Option ResearchRecord,
      (order.foldl (fun slots j => fun k => if k = j then some (f j) else slots k) init) i =
        if i ∈ order then some (f i) else init i by
    simpa [gatherSlots] using h (fun _ => none)
  induction order with
  | nil => intro init; simp
  | cons a rest ih =>
    intro init
    simp only [List.foldl_cons]
    rw [ih]
    by_cases hmem : i ∈ rest
    · simp [hmem]
    · by_cases hia : i = a
      · subst hia
        simp [hmem]
      · simp [hmem, hia, List.mem_cons]

/-- Claim C3: for every holding list and every completion order that is
a permutation of the task indices, the fan-out returns exactly N
research records; the record at index i is the one researched for the
holding at index i (input order is preserved regardless of completion
order, and its ticker matches); and a failing provider lookup for
holding i yields a record carrying the inline error, never a missing
record. -/
theorem claim_c3_fanout (stocks : List Holding) (env : Nat → ProviderClients)
    (order : List Nat) (hperm : order.Perm (List.range stocks.length)) :
    (fanOut stocks env order).length = stocks.length ∧
    (∀ i : Nat, i < stocks.length →
      (fanOut stocks env order).getD i default =
        runResearch (stocks.getD i default) (env i)) ∧
    (∀ i : Nat, i < stocks.length →
      ((fanOut stocks env order).getD i default).ticker = (stocks.getD i default).ticker) ∧
    (∀ i : Nat, i < stocks.length → ∀ e : String, (env i).newsClient = Except.error e →
      ((fanOut stocks env order).getD i default).recent_news = [NewsEntry.err e]) := by
  have hmem : ∀ i : Nat, i < stocks.length → i ∈ order := by
    intro i hi
    exact hperm.mem_iff.mpr (List.mem_range.mpr hi)
  have hmain : ∀ i : Nat, i < stocks.length →
      (fanOut stocks env order).getD i default =
        runResearch (stocks.getD i default) (env i) := by
    intro i hi
    rw [fanOut, List.getD_eq_getElem?_getD, List.getElem?_map,
      List.getElem?_range hi]
    simp only [Option.map_some', Option.getD_some]
    rw [gatherSlots_eval, if_pos (hmem i hi)]
    rfl
  refine ⟨by simp [fanOut], hmain, ?_, ?_⟩
  · intro i hi
    rw [hmain i hi]
    rfl
  · intro i hi e he
    rw [hmain i hi]
    show (getCompanyNews (env i).fmtDate (env i).newsClient) = [NewsEntry.err e]
    rw [he]
    rfl

/-- Two concrete holdings for the C3 witness. -/
def stocksW : List Holding :=
  [{ ticker := ("AAA"), shares := some 1, avg_cost := some 2 },
   { ticker := ("BBB"), shares := some 3, avg_cost := some 4 }]

/-- A concrete provider environment for the C3 witness: the news client
of task 1 raises, everything else succeeds empty. -/
def envW : Nat → ProviderClients := fun i =>
  { fmtDate := fun _ => ""
    newsClient := if i = 1 then Except.error ("boom") else Except.ok none
    recsClient := Except.ok none
    contextClient := Except.ok (none, []) }

/-- Witness for C3: completion order `[1, 0]` (reverse of input) still
yields the record for holding 1 at index 1, carrying the inline news
error. -/
theorem claim_c3_fanout_w :
    (fanOut stocksW envW [1, 0]).length = 2 ∧
    ((fanOut stocksW envW [1, 0]).getD 1 default).ticker = ("BBB") ∧
    ((fanOut stocksW envW [1, 0]).getD 1 default).recent_news = [NewsEntry.err ("boom")] := by
  have h := claim_c3_fanout stocksW envW [1, 0] (by decide)
  refine ⟨h.1, ?_, h.2.2.2 1 (by decide) ("boom") rfl⟩
  rw [h.2.2.1 1 (by decide)]
  decide

-- ## C4: the end-to-end extraction scenario

/-- The narrative of the spec's end-to-end scenario. -/
def narrativeC4 : String :=
  "**AAA**\nBUY\nConfidence: High\n**Reasoning:** strong earnings\n**Key Risk:** rate hikes\n**BBB**\nSELL\nConfidence: Low\nOVERALL PORTFOLIO ASSESSMENT\nConcentrated in tech."

/-- Claim C4, counterexample: on the scenario input the engine does NOT
produce the report claimed by the spec - the `[:\s]+` run of the
`**Reasoning:**` pattern stops at the first `*` after the colon, so the
lazy capture keeps the two stars: reasoning is `** strong earnings`, not
`strong earnings` (and the key risk is `** rate hikes`). -/
theorem claim_c4_counterexample :
    structuredReport narrativeC4 ["AAA", "BBB"] ≠
      { perSymbol :=
          [(("AAA"), { verdict := ("BUY"), confidence := ("High"),
                       reasoning := ("strong earnings"), keyRisk := ("rate hikes") }),
           (("BBB"), { verdict := ("SELL"), confidence := ("Low"),
                       reasoning := "", keyRisk := "" })],
        overall := ("Concentrated in tech.") } := by
  set_option maxRecDepth 10000 in decide

/-- Claim C4 (amended): on the scenario input the engine yields exactly
AAA: verdict BUY, confidence High, reasoning `** strong earnings`, key
risk `** rate hikes`; BBB: verdict SELL, confidence Low, empty reasoning
and key risk; overall assessment `Concentrated in tech.`. -/
theorem claim_c4_extraction :
    structuredReport narrativeC4 ["AAA", "BBB"] =
      { perSymbol :=
          [(("AAA"), { verdict := ("BUY"), confidence := ("High"),
                       reasoning := ("** strong earnings"), keyRisk := ("** rate hikes") }),
           (("BBB"), { verdict := ("SELL"), confidence := ("Low"),
                       reasoning := "", keyRisk := "" })],
        overall := ("Concentrated in tech.") } := by
  set_option maxRecDepth 10000 in decide
